import Mathlib

/-!
# Verification of `comparator.ts` (fluent comparator builder)

Shallow embedding of `src/comparator-builder.ts` and the `comparator`
module it imports (`NaturalOrder`, `isComparable`, `isComparator`,
`_compareKeyValue`, and the proxy-based `comparatorBuilder`).

JavaScript values relevant to the comparison engine are modelled by the
inductive type `JsVal`; fallible JS evaluation (a `throw`) is modelled by
`Except String`.  JS numbers are modelled by `Int` plus a separate `nan`
constructor (the claims only exercise integral numbers and `NaN`).
Objects carry a reference identity (`Nat`), a model of their `compareTo`
property slot, and their enumerable fields.
-/

namespace Comparator

/-- Model of an object's `compareTo` property slot.  JS distinguishes an
absent property (reads as `undefined`), a property explicitly set to
`null`, and a function-valued property.  A `compareTo` implementation is
modelled by its result as a function of the argument object's identity. -/
inductive CmpSlot where
  | absent
  | nullSlot
  | fn (f : Nat → Int)

/-- JS values: `undefined`, `null`, booleans, (integral) numbers, `NaN`,
strings, and objects with identity `id`, a `compareTo` slot and fields. -/
inductive JsVal where
  | undef
  | nullV
  | bool (b : Bool)
  | num (n : Int)
  | nan
  | str (s : String)
  | obj (id : Nat) (cmpTo : CmpSlot) (fields : List (String × JsVal))

namespace JsVal

/-- Model of JS `ToNumber` on a numeric string: trimmed empty string is 0,
otherwise an optionally signed integer literal; anything else is `NaN`
(`none`).  (Fractional/hex literals are outside the claims' domain.) -/
def strToNum (s : String) : Option Int :=
  let t := s.trim
  if t = "" then some 0 else t.toInt?

/-- Model of JS `ToPrimitive` (plain objects stringify to
`"[object Object]"`; everything else is already primitive). -/
def toPrimitive : JsVal → JsVal
  | obj _ _ _ => str "[object Object]"
  | v => v

/-- Model of JS `ToNumber` on a primitive value (`none` = `NaN`). -/
def toNumber : JsVal → Option Int
  | undef => none
  | nullV => some 0
  | bool b => some (if b then 1 else 0)
  | num n => some n
  | nan => none
  | str s => strToNum s
  | obj _ _ _ => strToNum "[object Object]"

/-- Model of JS loose equality `==` restricted to the `JsVal` domain:
`undefined == null`, `NaN` equal to nothing, numeric coercion between
numbers / booleans / numeric strings, objects by reference identity
(with `ToPrimitive` coercion against primitives). -/
def looseEq : JsVal → JsVal → Bool
  | undef, undef => true
  | undef, nullV => true
  | nullV, undef => true
  | nullV, nullV => true
  | undef, _ => false
  | _, undef => false
  | nullV, _ => false
  | _, nullV => false
  | nan, _ => false
  | _, nan => false
  | str s1, str s2 => s1 = s2
  | obj i _ _, obj j _ _ => i = j
  | obj _ _ _, str s => "[object Object]" = s
  | str s, obj _ _ _ => s = "[object Object]"
  | a, b =>
    match toNumber a, toNumber b with
    | some x, some y => x = y
    | _, _ => false

/-- Model of JS `a > b` (abstract relational comparison): both strings
compare lexicographically, otherwise both sides coerce via `ToNumber`
and any `NaN` makes the comparison false. -/
def jsGt (a b : JsVal) : Bool :=
  match toPrimitive a, toPrimitive b with
  | str s1, str s2 => decide (s2 < s1)
  | pa, pb =>
    match toNumber pa, toNumber pb with
    | some x, some y => decide (y < x)
    | _, _ => false

/-- Model of JS truthiness. -/
def truthy : JsVal → Bool
  | undef => false
  | nullV => false
  | bool b => b
  | num n => decide (n ≠ 0)
  | nan => false
  | str s => decide (s ≠ "")
  | obj _ _ _ => true

/-- JS property read `v[k]` for the fields the claims project (absent
field or non-object receiver reads as `undefined`). -/
def getField : JsVal → String → JsVal
  | obj _ _ fields, k => ((fields.find? (fun p => p.1 = k)).map Prod.snd).getD undef
  | _, _ => undef

end JsVal

open JsVal

/-- Model of ICU `String.prototype.localeCompare(_, _, {sensitivity:
'case'})` restricted to ASCII: case-insensitive primary comparison with a
code-point tiebreak.  Returns -1, 0 or 1. -/
def localeCompare (s1 s2 : String) : Int :=
  let l1 := s1.toLower
  let l2 := s2.toLower
  if l1 = l2 then (if s1 = s2 then 0 else if s1 < s2 then -1 else 1)
  else (if l1 < l2 then -1 else 1)

/-- `isComparable` from `src/comparator.ts`:
`o && typeof o === 'object' && (o as Comparable<T>).compareTo !== null`.
Note the strict `!== null`: an object whose `compareTo` property is
absent reads it as `undefined`, and `undefined !== null` is `true`, so
every object without an explicitly-null `compareTo` passes the guard. -/
def isComparable : JsVal → Bool
  | JsVal.obj _ CmpSlot.nullSlot _ => false
  | JsVal.obj _ _ _ => true
  | _ => false

/-- Model of the call `o1.compareTo(o2)`: a `TypeError` is thrown when
`compareTo` is not a function; otherwise the modelled implementation runs
on the argument's object identity. -/
def callCompareTo : JsVal → JsVal → Except String Int
  | JsVal.obj _ (CmpSlot.fn f) _, JsVal.obj j _ _ => Except.ok (f j)
  | JsVal.obj _ (CmpSlot.fn f) _, _ => Except.ok (f 0)
  | _, _ => Except.error "TypeError: o1.compareTo is not a function"

/-- `NaturalOrder` from `src/comparator.ts`, step by step:
loose-equality fast path, null checks (`o1 == null` matches both `null`
and `undefined`), comparable delegation, string `localeCompare`, and the
primitive `o2 > o1 ? -1 : 1` fallback. -/
def NaturalOrder (o1 o2 : JsVal) : Except String Int :=
  if looseEq o1 o2 then Except.ok 0
  else if looseEq o1 JsVal.nullV then Except.ok (-1)
  else if looseEq o2 JsVal.nullV then Except.ok 1
  else if isComparable o1 && isComparable o2 then callCompareTo o1 o2
  else
    match o1, o2 with
    | JsVal.str s1, JsVal.str s2 => Except.ok (localeCompare s1 s2)
    | _, _ => Except.ok (if jsGt o2 o1 then -1 else 1)

/-- Model of `JSON.stringify` on `JsVal` (used only to build the usage
error message): numbers print bare, strings quoted, `NaN` serializes to
`null`, objects serialize their fields. -/
def stringify : JsVal → String
  | JsVal.undef => "undefined"
  | JsVal.nullV => "null"
  | JsVal.bool b => if b then "true" else "false"
  | JsVal.num n => toString n
  | JsVal.nan => "null"
  | JsVal.str s => "\x22" ++ s ++ "\x22"
  | JsVal.obj _ _ fields => "\x7b" ++ stringifyFields fields ++ "\x7d"
where
  stringifyFields : List (String × JsVal) → String
  | [] => ""
  | [(k, v)] => "\x22" ++ k ++ "\x22:" ++ stringify v
  | (k, v) :: rest => "\x22" ++ k ++ "\x22:" ++ stringify v ++ "," ++ stringifyFields rest

/-- The runtime argument `x` of a field-named builder operation.  The
source discriminates it by shape: `typeof x === 'function'` (`fnArg`),
`isComparator(x)` i.e. an object whose `compare` property is non-null
(`cmpObj`), or any other value (`value`, embedded as a `JsVal`; objects
appearing here carry no `compare` property). -/
inductive FieldArg where
  | fnArg (f : JsVal → JsVal → Except String Int)
  | cmpObj (compare : JsVal → JsVal → Except String Int)
  | value (v : JsVal)

/-- JS truthiness of the field-operation argument (functions and objects
are always truthy). -/
def truthyArg : FieldArg → Bool
  | FieldArg.fnArg _ => true
  | FieldArg.cmpObj _ => true
  | FieldArg.value v => truthy v

/-- `JSON.stringify(x)` as interpolated into the usage error message.
(The `fnArg`/`cmpObj` cases never reach the message.) -/
def stringifyArg : FieldArg → String
  | FieldArg.fnArg _ => "undefined"
  | FieldArg.cmpObj _ => "\x7b\x7d"
  | FieldArg.value v => stringify v

/-- The compare closure that the default (field-named) proxy case pushes
onto the chain, from `comparatorBuilder`:
`if (!x) NaturalOrder else if function x(...) else if (isComparator(x))
x.compare(...) else throw Error('Unknown compare operation ...')`. -/
def fieldEntryCompare (x : FieldArg) (o1 o2 : JsVal) : Except String Int :=
  if !truthyArg x then NaturalOrder o1 o2
  else
    match x with
    | FieldArg.fnArg f => f o1 o2
    | FieldArg.cmpObj c => c o1 o2
    | FieldArg.value _ =>
        Except.error ("Unknown compare operation " ++ stringifyArg x)

/-- `CompareWithProp<T>` from `src/comparator.ts`: an optional projected
property plus the compare function of the chain entry. -/
structure CompareWithProp where
  compareProp : Option String
  compare : JsVal → JsVal → Except String Int

/-- `_compareKeyValue` from `src/comparator-builder.ts`: run the entry's
compare on the whole values when `compareProp` is `undefined`, otherwise
on the projected property values. -/
def _compareKeyValue (o1 o2 : JsVal) (e : CompareWithProp) : Except String Int :=
  match e.compareProp with
  | none => e.compare o1 o2
  | some p => e.compare (getField o1 p) (getField o2 p)

/-- The `for (const val of rest)` loop of the `compare` case: if the
running result is non-zero return it, otherwise evaluate the next entry
and continue; after the loop return the running result. -/
def compareLoop (o1 o2 : JsVal) (initial : Int) : List CompareWithProp → Except String Int
  | [] => Except.ok initial
  | val :: rest =>
      if initial ≠ 0 then Except.ok initial
      else do
        let next ← _compareKeyValue o1 o2 val
        compareLoop o1 o2 next rest

/-- The `compare` case of the builder proxy: 0 on an empty chain,
otherwise evaluate the first entry and run the short-circuiting loop
over the rest. -/
def compareChain (chain : List CompareWithProp) (o1 o2 : JsVal) : Except String Int :=
  match chain with
  | [] => Except.ok 0
  | first :: rest => do
      let initial ← _compareKeyValue o1 o2 first
      compareLoop o1 o2 initial rest

/-- The chain entry appended by a field-named operation. -/
def mkFieldEntry (prop : String) (x : FieldArg) : CompareWithProp :=
  { compareProp := some prop, compare := fieldEntryCompare x }

/-- The default (field-named) proxy case: push an entry projecting
`prop` with the dispatching compare closure, and return the builder.
The builder's mutable `comparatorChain` is passed explicitly. -/
def fieldOp (prop : String) (x : FieldArg) (chain : List CompareWithProp) :
    List CompareWithProp :=
  chain ++ [mkFieldEntry prop x]

/-- The field-named operation as a fallible JS call: its body only
pushes an entry and returns the builder, so it always succeeds — the
`throw` in the source sits inside the pushed compare closure, not in
the operation itself. -/
def fieldOpE (prop : String) (x : FieldArg) (chain : List CompareWithProp) :
    Except String (List CompareWithProp) :=
  Except.ok (fieldOp prop x chain)

/-- The `thenComparing` case: push a whole-record entry
(`compareProp: undefined`) with the given comparator's compare. -/
def thenComparing (c : JsVal → JsVal → Except String Int)
    (chain : List CompareWithProp) : List CompareWithProp :=
  chain ++ [{ compareProp := none, compare := c }]

/-- The `compare` of the lightweight object returned by the `reversed`
case: it delegates to the builder's own `compare` with swapped
arguments. -/
def reversedCompare (chain : List CompareWithProp) (o1 o2 : JsVal) :
    Except String Int :=
  compareChain chain o2 o1

/-- The effect of a `reversed()` call on the builder's chain: the
handler only constructs the returned comparator object and performs no
push, so the chain is unchanged. -/
def reversedChain (chain : List CompareWithProp) : List CompareWithProp :=
  chain

/-- Spec-side description of chain evaluation (from the invariant's
words): walk the entry results in order and return the first non-zero
one (propagating a thrown error); an exhausted or empty list yields 0. -/
def firstNonZeroResult : List (Except String Int) → Except String Int
  | [] => Except.ok 0
  | r :: rs =>
      match r with
      | Except.error e => Except.error e
      | Except.ok v => if v ≠ 0 then Except.ok v else firstNonZeroResult rs

/-- Values on the plain numeric branch of `NaturalOrder`: booleans and
non-`NaN` numbers (no nullish values, strings or objects). -/
def isPlainNumeric : JsVal → Bool
  | JsVal.bool _ => true
  | JsVal.num _ => true
  | _ => false

theorem compareChain_singleton (e : CompareWithProp) (o1 o2 : JsVal) :
    compareChain [e] o1 o2 = _compareKeyValue o1 o2 e := by
  show Except.bind (_compareKeyValue o1 o2 e) (fun i => compareLoop o1 o2 i []) = _
  cases _compareKeyValue o1 o2 e with
  | error s => rfl
  | ok v =>
      show compareLoop o1 o2 v [] = Except.ok v
      rfl

theorem looseEq_undef_left (v : JsVal) :
    looseEq JsVal.undef v = looseEq v JsVal.nullV := by
  cases v <;> rfl

theorem looseEq_undef_right (v : JsVal) :
    looseEq v JsVal.undef = looseEq v JsVal.nullV := by
  cases v <;> rfl

end Comparator
namespace Comparator

theorem compareLoop_eq (o1 o2 : JsVal) (rest : List CompareWithProp) :
    ∀ v : Int, compareLoop o1 o2 v rest =
      if v ≠ 0 then Except.ok v
      else firstNonZeroResult (rest.map (fun e => _compareKeyValue o1 o2 e)) := by
  induction rest with
  | nil =>
      intro v
      by_cases h : v = 0
      · subst h; simp [compareLoop, firstNonZeroResult]
      · simp [compareLoop, h]
  | cons val rest ih =>
      intro v
      by_cases h : v = 0
      · subst h
        show Except.bind (_compareKeyValue o1 o2 val) (fun next => compareLoop o1 o2 next rest) = _
        cases hval : _compareKeyValue o1 o2 val with
        | error s => simp [firstNonZeroResult, hval, Except.bind]
        | ok w =>
            simp only [List.map_cons, firstNonZeroResult, hval]
            show compareLoop o1 o2 w rest = _
            rw [ih w]
            by_cases hw : w = 0
            · subst hw; simp
            · simp [hw]
      · simp [compareLoop, h]

theorem compareChain_eq_firstNonZero (chain : List CompareWithProp) (o1 o2 : JsVal) :
    compareChain chain o1 o2 =
      firstNonZeroResult (chain.map (fun e => _compareKeyValue o1 o2 e)) := by
  cases chain with
  | nil => rfl
  | cons first rest =>
      show Except.bind (_compareKeyValue o1 o2 first) (fun i => compareLoop o1 o2 i rest) = _
      cases hval : _compareKeyValue o1 o2 first with
      | error s => simp [firstNonZeroResult, hval, Except.bind]
      | ok v =>
          simp only [List.map_cons, firstNonZeroResult, hval]
          show compareLoop o1 o2 v rest = _
          rw [compareLoop_eq]

theorem firstNonZeroResult_append (l1 l2 : List (Except String Int)) (v : Int)
    (hv : v ≠ 0) (h : firstNonZeroResult l1 = Except.ok v) :
    firstNonZeroResult (l1 ++ l2) = Except.ok v := by
  induction l1 with
  | nil =>
      simp [firstNonZeroResult] at h
      exact absurd h.symm hv
  | cons r rs ih =>
      cases r with
      | error s => simp [firstNonZeroResult] at h ⊢
      | ok w =>
          by_cases hw : w = 0
          · subst hw
            simp [firstNonZeroResult] at h ⊢
            exact ih h
          · simp [firstNonZeroResult, hw] at h ⊢
            exact h

end Comparator
namespace Comparator
open JsVal

/-- Claim C3: `builder.compare` evaluates chain entries in strict insertion
order and returns the first non-zero entry result; entries after the first
non-zero one never execute (rendered purely: the result is determined by,
and equal to, the first non-zero result of the entry prefix, whatever
entries follow). -/
theorem chain_short_circuit_first_nonzero :
    (∀ (chain : List CompareWithProp) (o1 o2 : JsVal),
      compareChain chain o1 o2 =
        firstNonZeroResult (chain.map (fun e => _compareKeyValue o1 o2 e))) ∧
    (∀ (pre suf : List CompareWithProp) (o1 o2 : JsVal) (v : Int), v ≠ 0 →
      firstNonZeroResult (pre.map (fun e => _compareKeyValue o1 o2 e)) = Except.ok v →
      compareChain (pre ++ suf) o1 o2 = Except.ok v) := by
  constructor
  · exact compareChain_eq_firstNonZero
  · intro pre suf o1 o2 v hv h
    rw [compareChain_eq_firstNonZero, List.map_append]
    exact firstNonZeroResult_append _ _ v hv h

theorem chain_short_circuit_first_nonzero_witness :
    compareChain
      [{ compareProp := none, compare := fun _ _ => Except.ok 1 },
       { compareProp := none, compare := fun _ _ => Except.error "stub executed" }]
      JsVal.undef JsVal.undef = Except.ok 1 :=
  chain_short_circuit_first_nonzero.2
    [{ compareProp := none, compare := fun _ _ => Except.ok 1 }]
    [{ compareProp := none, compare := fun _ _ => Except.error "stub executed" }]
    JsVal.undef JsVal.undef 1 (by decide) rfl

/-- Claim C4: the comparator returned by `reversed()` satisfies
`C.reversed().compare(o1, o2) = C.compare(o2, o1)`, and the `reversed()`
call leaves the builder chain unchanged. -/
theorem reversed_swaps_arguments (chain : List CompareWithProp) (o1 o2 : JsVal) :
    reversedCompare chain o1 o2 = compareChain chain o2 o1 ∧
    reversedChain chain = chain :=
  ⟨rfl, rfl⟩

/-- Claim C5: on a chain with zero entries, `compare` returns 0 for every
pair of inputs and raises no error. -/
theorem empty_chain_compares_equal (o1 o2 : JsVal) :
    compareChain [] o1 o2 = Except.ok 0 :=
  rfl

/-- Claim C6: a one-entry chain built by a field operation with no
explicit compare argument compares exactly as `NaturalOrder` applied to
the projected field values. -/
theorem single_field_entry_is_natural_order (prop : String) (o1 o2 : JsVal) :
    compareChain (fieldOp prop (FieldArg.value JsVal.undef) []) o1 o2 =
      NaturalOrder (getField o1 prop) (getField o2 prop) := by
  show compareChain [mkFieldEntry prop (FieldArg.value JsVal.undef)] o1 o2 = _
  rw [compareChain_singleton]
  rfl

/-- Claim C1 counterexample: calling a field operation with argument `42`
does not raise the usage error at chain-extension time — the call returns
normally with the entry appended, and the error `Unknown compare
operation 42` is raised only when `compare` evaluates the entry. -/
theorem field_op_bad_arg_error_is_deferred :
    fieldOpE "a" (FieldArg.value (JsVal.num 42)) [] =
      Except.ok [mkFieldEntry "a" (FieldArg.value (JsVal.num 42))] ∧
    compareChain (fieldOp "a" (FieldArg.value (JsVal.num 42)) [])
        (JsVal.num 1) (JsVal.num 2) =
      Except.error "Unknown compare operation 42" :=
  ⟨rfl, rfl⟩

/-- Claim C1 amended: for every truthy field-operation argument that is
neither a function nor a compare-capable object, the field-operation call
itself completes normally (appending an entry), and the usage error
`Unknown compare operation ...` identifying the offending argument is
raised when the appended entry's compare function is evaluated by a
`compare` call. -/
theorem field_op_bad_arg_appends_erroring_entry (prop : String) (v : JsVal)
    (chain : List CompareWithProp) (h : truthy v = true) :
    fieldOpE prop (FieldArg.value v) chain =
      Except.ok (chain ++ [mkFieldEntry prop (FieldArg.value v)]) ∧
    ∀ o1 o2, fieldEntryCompare (FieldArg.value v) o1 o2 =
      Except.error ("Unknown compare operation " ++ stringify v) := by
  refine ⟨rfl, fun o1 o2 => ?_⟩
  simp [fieldEntryCompare, truthyArg, h, stringifyArg]

theorem field_op_bad_arg_appends_erroring_entry_witness :
    fieldEntryCompare (FieldArg.value (JsVal.num 42)) (JsVal.num 1) (JsVal.num 2) =
      Except.error ("Unknown compare operation " ++ stringify (JsVal.num 42)) :=
  (field_op_bad_arg_appends_erroring_entry "a" (JsVal.num 42) [] rfl).2
    (JsVal.num 1) (JsVal.num 2)

/-- Claim C2 (code bug): the `isComparable` guard accepts every object
whose `compareTo` property is not explicitly `null` (because it tests
`compareTo !== null` and an absent property reads as `undefined`), so for
two distinct plain objects without a `compareTo` method `NaturalOrder`
attempts `o1.compareTo(o2)` and throws a `TypeError` instead of falling
through to the primitive branch. -/
theorem natural_order_plain_objects_throw :
    isComparable (JsVal.obj 0 CmpSlot.absent []) = true ∧
    NaturalOrder (JsVal.obj 0 CmpSlot.absent []) (JsVal.obj 1 CmpSlot.absent []) =
      Except.error "TypeError: o1.compareTo is not a function" :=
  ⟨rfl, rfl⟩

/-- Claim C7 counterexample: `NaN` is not loosely equal to itself, so
`NaturalOrder(NaN, NaN)` misses the equality fast path and returns 1,
not 0. -/
theorem natural_order_nan_not_reflexive :
    looseEq JsVal.nan JsVal.nan = false ∧
    NaturalOrder JsVal.nan JsVal.nan = Except.ok 1 :=
  ⟨rfl, rfl⟩

/-- Claim C7 amended: for every value `x` that is loosely equal to itself
(every value except `NaN`), `NaturalOrder(x, x)` returns 0 via the
equality fast path. -/
theorem natural_order_reflexive_on_loose_eq (x : JsVal) (h : looseEq x x = true) :
    NaturalOrder x x = Except.ok 0 := by
  simp [NaturalOrder, h]

theorem natural_order_reflexive_on_loose_eq_witness :
    NaturalOrder (JsVal.num 5) (JsVal.num 5) = Except.ok 0 :=
  natural_order_reflexive_on_loose_eq (JsVal.num 5) rfl

end Comparator
namespace Comparator
open JsVal

theorem toNumber_plain (a : JsVal) (ha : isPlainNumeric a = true) :
    ∃ x, toNumber a = some x := by
  cases a with
  | bool b => exact ⟨_, rfl⟩
  | num n => exact ⟨_, rfl⟩
  | undef => simp [isPlainNumeric] at ha
  | nullV => simp [isPlainNumeric] at ha
  | nan => simp [isPlainNumeric] at ha
  | str s => simp [isPlainNumeric] at ha
  | obj i c fs => simp [isPlainNumeric] at ha

theorem looseEq_plain (a b : JsVal) (x y : Int)
    (hx : toNumber a = some x) (hy : toNumber b = some y)
    (ha : isPlainNumeric a = true) (hb : isPlainNumeric b = true) :
    looseEq a b = decide (x = y) := by
  cases a with
  | bool b1 =>
      cases b with
      | bool b2 =>
          injection hx with hx'; injection hy with hy'
          subst hx'; subst hy'; rfl
      | num n =>
          injection hx with hx'; injection hy with hy'
          subst hx'; subst hy'; rfl
      | undef => simp [isPlainNumeric] at hb
      | nullV => simp [isPlainNumeric] at hb
      | nan => simp [isPlainNumeric] at hb
      | str s => simp [isPlainNumeric] at hb
      | obj i c fs => simp [isPlainNumeric] at hb
  | num m =>
      cases b with
      | bool b2 =>
          injection hx with hx'; injection hy with hy'
          subst hx'; subst hy'; rfl
      | num n =>
          injection hx with hx'; injection hy with hy'
          subst hx'; subst hy'; rfl
      | undef => simp [isPlainNumeric] at hb
      | nullV => simp [isPlainNumeric] at hb
      | nan => simp [isPlainNumeric] at hb
      | str s => simp [isPlainNumeric] at hb
      | obj i c fs => simp [isPlainNumeric] at hb
  | undef => simp [isPlainNumeric] at ha
  | nullV => simp [isPlainNumeric] at ha
  | nan => simp [isPlainNumeric] at ha
  | str s => simp [isPlainNumeric] at ha
  | obj i c fs => simp [isPlainNumeric] at ha

end Comparator
namespace Comparator
open JsVal

theorem natural_order_plain_eval (a b : JsVal) (x y : Int)
    (hx : toNumber a = some x) (hy : toNumber b = some y)
    (ha : isPlainNumeric a = true) (hb : isPlainNumeric b = true)
    (hne : looseEq a b = false) :
    NaturalOrder a b = Except.ok (if x < y then -1 else 1) := by
  cases a with
  | bool b1 =>
      cases b with
      | bool b2 =>
          injection hx with hx'; injection hy with hy'; subst hx'; subst hy'
          have h1 : looseEq (JsVal.bool b1) JsVal.nullV = false := rfl
          have h2 : looseEq (JsVal.bool b2) JsVal.nullV = false := rfl
          have h3 : isComparable (JsVal.bool b1) = false := rfl
          have h4 : jsGt (JsVal.bool b2) (JsVal.bool b1) =
              decide ((if b1 then (1:Int) else 0) < (if b2 then (1:Int) else 0)) := rfl
          simp [NaturalOrder, hne, h1, h2, h3, h4]
      | num n =>
          injection hx with hx'; injection hy with hy'; subst hx'; subst hy'
          have h1 : looseEq (JsVal.bool b1) JsVal.nullV = false := rfl
          have h2 : looseEq (JsVal.num n) JsVal.nullV = false := rfl
          have h3 : isComparable (JsVal.bool b1) = false := rfl
          have h4 : jsGt (JsVal.num n) (JsVal.bool b1) =
              decide ((if b1 then (1:Int) else 0) < n) := rfl
          simp [NaturalOrder, hne, h1, h2, h3, h4]
      | undef => simp [isPlainNumeric] at hb
      | nullV => simp [isPlainNumeric] at hb
      | nan => simp [isPlainNumeric] at hb
      | str s => simp [isPlainNumeric] at hb
      | obj i c fs => simp [isPlainNumeric] at hb
  | num m =>
      cases b with
      | bool b2 =>
          injection hx with hx'; injection hy with hy'; subst hx'; subst hy'
          have h1 : looseEq (JsVal.num m) JsVal.nullV = false := rfl
          have h2 : looseEq (JsVal.bool b2) JsVal.nullV = false := rfl
          have h3 : isComparable (JsVal.num m) = false := rfl
          have h4 : jsGt (JsVal.bool b2) (JsVal.num m) =
              decide (m < (if b2 then (1:Int) else 0)) := rfl
          simp [NaturalOrder, hne, h1, h2, h3, h4]
      | num n =>
          injection hx with hx'; injection hy with hy'; subst hx'; subst hy'
          have h1 : looseEq (JsVal.num m) JsVal.nullV = false := rfl
          have h2 : looseEq (JsVal.num n) JsVal.nullV = false := rfl
          have h3 : isComparable (JsVal.num m) = false := rfl
          have h4 : jsGt (JsVal.num n) (JsVal.num m) = decide (m < n) := rfl
          simp [NaturalOrder, hne, h1, h2, h3, h4]
      | undef => simp [isPlainNumeric] at hb
      | nullV => simp [isPlainNumeric] at hb
      | nan => simp [isPlainNumeric] at hb
      | str s => simp [isPlainNumeric] at hb
      | obj i c fs => simp [isPlainNumeric] at hb
  | undef => simp [isPlainNumeric] at ha
  | nullV => simp [isPlainNumeric] at ha
  | nan => simp [isPlainNumeric] at ha
  | str s => simp [isPlainNumeric] at ha
  | obj i c fs => simp [isPlainNumeric] at ha

end Comparator
namespace Comparator
open JsVal

/-- Claim C8 counterexample: `NaN` and `5` are non-null and not loosely
equal, yet `NaturalOrder` returns 1 in both argument orders — the signs
are not opposite. -/
theorem natural_order_nan_sign_not_antisymmetric :
    looseEq JsVal.nan (JsVal.num 5) = false ∧
    looseEq JsVal.nan JsVal.nullV = false ∧
    looseEq (JsVal.num 5) JsVal.nullV = false ∧
    NaturalOrder JsVal.nan (JsVal.num 5) = Except.ok 1 ∧
    NaturalOrder (JsVal.num 5) JsVal.nan = Except.ok 1 :=
  ⟨rfl, rfl, rfl, rfl, rfl⟩

/-- Claim C8 amended: for non-null, not-loosely-equal values on the plain
numeric branch (booleans and non-`NaN` numbers), the sign of
`NaturalOrder(a, b)` is the opposite of the sign of `NaturalOrder(b, a)`
(one direction returns -1 and the other 1). -/
theorem natural_order_sign_antisymmetric_plain (a b : JsVal)
    (ha : isPlainNumeric a = true) (hb : isPlainNumeric b = true)
    (hne : looseEq a b = false) :
    (NaturalOrder a b = Except.ok (-1) ∧ NaturalOrder b a = Except.ok 1) ∨
    (NaturalOrder a b = Except.ok 1 ∧ NaturalOrder b a = Except.ok (-1)) := by
  obtain ⟨x, hx⟩ := toNumber_plain a ha
  obtain ⟨y, hy⟩ := toNumber_plain b hb
  have hxy : ¬ (x = y) := by
    intro hcontra
    rw [looseEq_plain a b x y hx hy ha hb, hcontra] at hne
    simp at hne
  have hsym : looseEq b a = false := by
    rw [looseEq_plain b a y x hy hx hb ha]
    exact decide_eq_false (fun hc => hxy hc.symm)
  have hab := natural_order_plain_eval a b x y hx hy ha hb hne
  have hba := natural_order_plain_eval b a y x hy hx hb ha hsym
  rcases lt_trichotomy x y with h | h | h
  · left
    constructor
    · rw [hab, if_pos h]
    · rw [hba, if_neg (by omega)]
  · exact absurd h hxy
  · right
    constructor
    · rw [hab, if_neg (by omega)]
    · rw [hba, if_pos h]

theorem natural_order_sign_antisymmetric_plain_witness :
    (NaturalOrder (JsVal.num 1) (JsVal.num 2) = Except.ok (-1) ∧
      NaturalOrder (JsVal.num 2) (JsVal.num 1) = Except.ok 1) ∨
    (NaturalOrder (JsVal.num 1) (JsVal.num 2) = Except.ok 1 ∧
      NaturalOrder (JsVal.num 2) (JsVal.num 1) = Except.ok (-1)) :=
  natural_order_sign_antisymmetric_plain (JsVal.num 1) (JsVal.num 2) rfl rfl rfl

/-- Claim C9: a field entry with no explicit compare function, applied to
records whose projections of the named field are `undefined`, compares
them as equal (0); when exactly one projection is `undefined` (the other
not nullish) that record sorts first (-1 when the first argument's
projection is `undefined`, 1 when the second's is); no error is raised
for the nonexistent field. -/
theorem missing_field_natural_order_null_handling (f : String) (o1 o2 : JsVal) :
    (getField o1 f = JsVal.undef → getField o2 f = JsVal.undef →
      compareChain (fieldOp f (FieldArg.value JsVal.undef) []) o1 o2 = Except.ok 0) ∧
    (getField o1 f = JsVal.undef → looseEq (getField o2 f) JsVal.nullV = false →
      compareChain (fieldOp f (FieldArg.value JsVal.undef) []) o1 o2 = Except.ok (-1)) ∧
    (getField o2 f = JsVal.undef → looseEq (getField o1 f) JsVal.nullV = false →
      compareChain (fieldOp f (FieldArg.value JsVal.undef) []) o1 o2 = Except.ok 1) := by
  have key : compareChain (fieldOp f (FieldArg.value JsVal.undef) []) o1 o2 =
      NaturalOrder (getField o1 f) (getField o2 f) := by
    show compareChain [mkFieldEntry f (FieldArg.value JsVal.undef)] o1 o2 = _
    rw [compareChain_singleton]
    rfl
  refine ⟨fun h1 h2 => ?_, fun h1 h2 => ?_, fun h1 h2 => ?_⟩
  · rw [key, h1, h2]; rfl
  · rw [key, h1]
    have e1 : looseEq JsVal.undef (getField o2 f) = false := by
      rw [looseEq_undef_left]; exact h2
    have e2 : looseEq JsVal.undef JsVal.nullV = true := rfl
    simp [NaturalOrder, e1, e2]
  · rw [key, h1]
    have e1 : looseEq (getField o1 f) JsVal.undef = false := by
      rw [looseEq_undef_right]; exact h2
    have e2 : looseEq JsVal.undef JsVal.nullV = true := rfl
    simp [NaturalOrder, e1, e2, h2]

theorem missing_field_natural_order_null_handling_witness :
    compareChain (fieldOp "b" (FieldArg.value JsVal.undef) [])
      (JsVal.obj 0 CmpSlot.absent [("a", JsVal.num 1)])
      (JsVal.obj 1 CmpSlot.absent []) = Except.ok 0 ∧
    compareChain (fieldOp "a" (FieldArg.value JsVal.undef) [])
      (JsVal.obj 0 CmpSlot.absent [("a", JsVal.num 1)])
      (JsVal.obj 1 CmpSlot.absent []) = Except.ok 1 :=
  ⟨(missing_field_natural_order_null_handling "b"
      (JsVal.obj 0 CmpSlot.absent [("a", JsVal.num 1)])
      (JsVal.obj 1 CmpSlot.absent [])).1 rfl rfl,
   (missing_field_natural_order_null_handling "a"
      (JsVal.obj 0 CmpSlot.absent [("a", JsVal.num 1)])
      (JsVal.obj 1 CmpSlot.absent [])).2.2 rfl rfl⟩

/-- Claim C10: a field operation given a falsy argument (undefined, or any
falsy value such as 0, the empty string, `false` or `null`) appends an
entry that falls back to `NaturalOrder` exactly as if the argument had
been omitted; function and comparator-object arguments run their own
compare, so the usage-error branch is reachable only for truthy arguments
that are neither functions nor compare-capable objects. -/
theorem falsy_arg_falls_back_to_natural_order (v : JsVal) (o1 o2 : JsVal) :
    (truthy v = false →
      fieldEntryCompare (FieldArg.value v) o1 o2 = NaturalOrder o1 o2) ∧
    (fieldEntryCompare (FieldArg.value JsVal.undef) o1 o2 = NaturalOrder o1 o2) ∧
    (∀ f, fieldEntryCompare (FieldArg.fnArg f) o1 o2 = f o1 o2) ∧
    (∀ c, fieldEntryCompare (FieldArg.cmpObj c) o1 o2 = c o1 o2) ∧
    (truthy v = true →
      fieldEntryCompare (FieldArg.value v) o1 o2 =
        Except.error ("Unknown compare operation " ++ stringify v)) := by
  refine ⟨fun h => ?_, rfl, fun f => rfl, fun c => rfl, fun h => ?_⟩
  · simp [fieldEntryCompare, truthyArg, h]
  · simp [fieldEntryCompare, truthyArg, h, stringifyArg]

theorem falsy_arg_falls_back_to_natural_order_witness :
    fieldEntryCompare (FieldArg.value (JsVal.num 0)) (JsVal.num 7) (JsVal.num 3) =
      NaturalOrder (JsVal.num 7) (JsVal.num 3) :=
  (falsy_arg_falls_back_to_natural_order (JsVal.num 0) (JsVal.num 7) (JsVal.num 3)).1 rfl

end Comparator
